import Mathlib

/-!
Shallow embedding of the go-microservices-monorepo core packages
(`pkg/logger`, `pkg/config`, `pkg/service`) and proofs of the spec claims.

Conventions of the embedding:
* Go's `os.Getenv` returns `""` both for an unset and for an empty
  variable, so environment variables are modelled as plain strings with
  `""` meaning unset/empty.
* Errors (`error` return values) become `Except String`; the string is
  the error message produced by the source's `fmt.Errorf` chain.
* `strings.ToLower` is modelled by Lean's `String.toLower` (ASCII case
  folding); every level name the source compares against is ASCII.
* `strconv.Atoi` is modelled with 64-bit `int` range checking, matching
  the usual Go platform.
-/

/-- Embedding of `strings.ToLower` on the ASCII range: uppercase ASCII
letters are shifted to lowercase, every other character is kept.  (Go's
function also folds non-ASCII letters, which never yields one of the
four ASCII level names, so the difference is irrelevant here.) -/
def goToLower (s : String) : String :=
  ⟨s.toList.map fun c => if 'A' ≤ c ∧ c ≤ 'Z' then Char.ofNat (c.toNat + 32) else c⟩

namespace logger

/-- The four slog levels the source's switch statement recognises. -/
inductive Level
  | debug
  | info
  | warn
  | error
deriving DecidableEq, Repr

/-- A `*slog.Logger` handle: after construction the only observable
state the source's contract cares about is the threshold fixed in the
handler options. -/
structure Logger where
  level : Level
deriving DecidableEq, Repr

/-- Embedding of `logger.New` (pkg/logger/logger.go): lowercase the
input, map it through the switch on the four level names, and fail with
`invalid log level: <lowered>` otherwise.  The global
`slog.SetDefault` side effect is modelled separately by `NewSt`. -/
def New (level : String) : Except String Logger :=
  let level := goToLower level
  if level = "debug" then .ok ⟨.debug⟩
  else if level = "info" then .ok ⟨.info⟩
  else if level = "warn" then .ok ⟨.warn⟩
  else if level = "error" then .ok ⟨.error⟩
  else .error ("invalid log level: " ++ level)

/-- Process-wide mutable logging state: the default logger installed by
`slog.SetDefault`. -/
structure World where
  defaultLogger : Option Logger
deriving DecidableEq, Repr

/-- Stateful embedding of `logger.New`: on success the source calls
`slog.SetDefault(logger)` before returning, on failure it returns before
reaching `SetDefault`, leaving the process state unchanged. -/
def NewSt (level : String) (w : World) : Except String Logger × World :=
  match New level with
  | .error e => (.error e, w)
  | .ok l => (.ok l, ⟨some l⟩)

end logger

namespace config

/-- The environment variables the config package reads (`""` = unset). -/
structure Env where
  APP_PORT : String
  APP_LOG_LEVEL : String
  APP_ENV : String
deriving DecidableEq, Repr

/-- Embedding of Go's `cmp.Or` at string type: the first argument when
it is non-zero (non-empty), otherwise the second. -/
def cmpOr (a b : String) : String :=
  if a = "" then b else a

/-- Embedding of `strconv.Atoi`: optional single sign, then one or more
ASCII digits, value within the 64-bit `int` range; the error string is
the message of the wrapped `strconv` error (`strconv.Quote` escaping is
not modelled; the inputs of interest contain no characters it would
escape). -/
def atoi (s : String) : Except String Int :=
  let chars := s.toList
  let signAndDigits : Bool × List Char :=
    match chars with
    | '+' :: rest => (false, rest)
    | '-' :: rest => (true, rest)
    | _ => (false, chars)
  let neg := signAndDigits.1
  let ds := signAndDigits.2
  if ds.isEmpty then
    .error ("strconv.Atoi: parsing \"" ++ s ++ "\": invalid syntax")
  else if ds.all Char.isDigit then
    let n : Int := Int.ofNat (ds.foldl (fun n c => 10 * n + (c.toNat - '0'.toNat)) 0)
    let v : Int := if neg then -n else n
    if -(2 ^ 63) ≤ v ∧ v < 2 ^ 63 then .ok v
    else .error ("strconv.Atoi: parsing \"" ++ s ++ "\": value out of range")
  else
    .error ("strconv.Atoi: parsing \"" ++ s ++ "\": invalid syntax")

/-- The configuration value built by `config.New`. -/
structure Config where
  Port : Int
  LogLevel : String
  Environment : String
deriving DecidableEq, Repr

/-- Embedding of `config.WithDefaultPort` (pkg/config/config.go): set
`Port` to the supplied default, then let a non-empty `APP_PORT`
override it, failing when the override does not parse.  The option
closes over the environment, so `env` is an explicit parameter here. -/
def WithDefaultPort (env : Env) (port : Int) : Config → Except String Config :=
  fun c =>
    let c := { c with Port := port }
    let portFromEnvVariable := env.APP_PORT
    if portFromEnvVariable ≠ "" then
      match atoi portFromEnvVariable with
      | .error e => .error ("invalid port in APP_PORT environment variable: " ++ e)
      | .ok parsedPort => .ok { c with Port := parsedPort }
    else
      .ok c

/-- The loop body of `config.New`: apply each option in order, aborting
with the first error. -/
def runOpts (c : Config) : List (Config → Except String Config) → Except String Config
  | [] => .ok c
  | opt :: rest =>
    match opt c with
    | .error e => .error e
    | .ok c2 => runOpts c2 rest

/-- Embedding of `config.New`: base values from `APP_ENV`/`APP_LOG_LEVEL`
via `cmp.Or`, zero `Port`, then the options in order. -/
def New (env : Env) (opts : List (Config → Except String Config)) : Except String Config :=
  runOpts
    { Port := 0
      LogLevel := cmpOr env.APP_LOG_LEVEL "info"
      Environment := cmpOr env.APP_ENV "local" }
    opts

end config

namespace service

/-- The service value built by `service.NewWithName`
(pkg/service/service.go).  `Log` is `none` while the Go field still
holds `nil`. -/
structure Service where
  Environment : String
  LogLevel : String
  Log : Option logger.Logger
  Name : String
  Port : Int
  Version : String
deriving DecidableEq, Repr

/-- Embedding of `service.WithEnvironment`. -/
def WithEnvironment (env : String) (s : Service) : Service :=
  { s with Environment := env }

/-- Embedding of `service.WithLogLevel`: always store the string; only
when a logger already exists, rebuild it, and keep the old logger when
the rebuild fails (the error is dropped). -/
def WithLogLevel (level : String) (s : Service) : Service :=
  let s := { s with LogLevel := level }
  match s.Log with
  | none => s
  | some _ =>
    match logger.New level with
    | .ok newLogger => { s with Log := some newLogger }
    | .error _ => s

/-- Embedding of `service.WithPort`. -/
def WithPort (port : Int) (c : Service) : Service :=
  { c with Port := port }

/-- Embedding of `service.WithVersion`. -/
def WithVersion (version : String) (s : Service) : Service :=
  { s with Version := version }

/-- The four option constructors of the service package, as syntax, so
claims can quantify over "any sequence of options". -/
inductive Opt
  | environment (env : String)
  | logLevel (level : String)
  | port (p : Int)
  | version (v : String)
deriving DecidableEq, Repr

/-- Interpretation of an `Opt` by the corresponding `With*` function. -/
def applyOpt (s : Service) : Opt → Service
  | .environment e => WithEnvironment e s
  | .logLevel l => WithLogLevel l s
  | .port p => WithPort p s
  | .version v => WithVersion v s

/-- Embedding of `service.NewWithName`: start from
`{LogLevel := "info", Name := name, Port := 8000}`, build the logger at
`svc.LogLevel` (failure aborts construction), then apply the options in
order. -/
def NewWithName (name : String) (opts : List Opt) : Except String Service :=
  let svc : Service :=
    { Environment := ""
      LogLevel := "info"
      Log := none
      Name := name
      Port := 8000
      Version := "" }
  match logger.New svc.LogLevel with
  | .error e => .error ("error initializing logger: " ++ e)
  | .ok l => .ok (opts.foldl applyOpt { svc with Log := some l })

/-- Pattern matching of Go's `net/http.ServeMux` for the literal
patterns `Run` registers: a pattern ending in `/` matches every path it
prefixes (so `/` matches every path), any other pattern matches
exactly.  Path canonicalisation and trailing-slash redirects are out of
scope. -/
def pathMatch (pattern path : String) : Bool :=
  if pattern.toList.getLast? == some '/' then pattern.toList.isPrefixOf path.toList
  else pattern == path

/-- Dispatch of `net/http.ServeMux`: among the registered patterns that
match the path, the longest wins; when none matches, the mux replies
with Go's standard `http.NotFound` response, status 404 and body
`404 page not found\n`.  Handlers here are the constant
status-200 bodies `Run` writes. -/
def muxServe (routes : List (String × String)) (path : String) : Nat × String :=
  let matching := routes.filter fun r => pathMatch r.1 path
  let best :=
    matching.foldl
      (fun acc r =>
        match acc with
        | none => some r
        | some b => if r.1.length > b.1.length then some r else some b)
      none
  match best with
  | some r => (200, r.2)
  | none => (404, "404 page not found\n")

/-- The four routes `Run` registers, in registration order, with the
exact bodies its `fmt.Fprintf` calls write. -/
def runRoutes (s : Service) : List (String × String) :=
  [("/", s.Name ++ " service"),
   ("/_ready", s.Name ++ " service is ready"),
   ("/_live", s.Name ++ " service is alive"),
   ("/_version", s.Version)]

/-- Response of the HTTP surface `Run` serves, for one request path. -/
def RunRequest (s : Service) (path : String) : Nat × String :=
  muxServe (runRoutes s) path

end service

/-- Spec-side naming map: which `logger.Level` a (already normalized)
string names.  Used to state the claims about thresholds; `logger.New`
itself is the source embedding. -/
def levelOfName (s : String) : Option logger.Level :=
  if s = "debug" then some .debug
  else if s = "info" then some .info
  else if s = "warn" then some .warn
  else if s = "error" then some .error
  else none

/-- Substring containment on strings, used to state "the error message
contains ...". -/
def strContains (s sub : String) : Prop :=
  sub.toList <:+: s.toList

instance (s sub : String) : Decidable (strContains s sub) :=
  List.decidableInfix sub.toList s.toList

/-- Helper: a string is contained in anything it prefixes. -/
theorem strContains_append_right (a b : String) : strContains (a ++ b) b :=
  ⟨a.toList, [], by simp [show (a ++ b).toList = a.toList ++ b.toList from rfl]⟩

/-- Helper: a string is contained in anything it suffixes. -/
theorem strContains_append_left (a b : String) : strContains (a ++ b) a :=
  ⟨[], b.toList, by simp [show (a ++ b).toList = a.toList ++ b.toList from rfl]⟩

/-- Helper: `runOpts` splits over list append, aborting on the first
error of the first segment. -/
theorem config.runOpts_append (c : config.Config)
    (pre rest : List (config.Config → Except String config.Config)) :
    config.runOpts c (pre ++ rest) =
      match config.runOpts c pre with
      | .ok c' => config.runOpts c' rest
      | .error e => .error e := by
  induction pre generalizing c with
  | nil => rfl
  | cons o pre ih =>
    simp only [List.cons_append, config.runOpts]
    cases o c <;> simp [ih]

/-- Helper: `logger.New` is the naming map on the lowercased input,
with the fixed error message when nothing is named. -/
theorem logger.New_eq (s : String) :
    logger.New s =
      match levelOfName (goToLower s) with
      | some l => .ok ⟨l⟩
      | none => .error ("invalid log level: " ++ goToLower s) := by
  unfold logger.New levelOfName
  by_cases h1 : goToLower s = "debug" <;>
    by_cases h2 : goToLower s = "info" <;>
    by_cases h3 : goToLower s = "warn" <;>
    by_cases h4 : goToLower s = "error" <;>
    simp [h1, h2, h3, h4]

/-- Claim C8: `config.New` with no options always succeeds; Environment
is `APP_ENV` or `"local"` when that variable is unset/empty, LogLevel
is `APP_LOG_LEVEL` or `"info"` when that variable is unset/empty, and
Port is the zero value `0` regardless of `APP_PORT`. -/
theorem config_New_no_options (env : config.Env) :
    config.New env [] =
      .ok { Port := 0
            LogLevel := if env.APP_LOG_LEVEL = "" then "info" else env.APP_LOG_LEVEL
            Environment := if env.APP_ENV = "" then "local" else env.APP_ENV } := by
  simp [config.New, config.runOpts, config.cmpOr]

/-- Claim C1: with a default-port option of value P, `config.New`
succeeds with Port = P when `APP_PORT` is unset/empty, and with
Port = n when `APP_PORT` parses to the integer n — regardless of P. -/
theorem config_New_default_port (env : config.Env) (P : Int) :
    (env.APP_PORT = "" →
      config.New env [config.WithDefaultPort env P] =
        .ok { Port := P
              LogLevel := config.cmpOr env.APP_LOG_LEVEL "info"
              Environment := config.cmpOr env.APP_ENV "local" }) ∧
    (∀ n : Int, config.atoi env.APP_PORT = .ok n →
      config.New env [config.WithDefaultPort env P] =
        .ok { Port := n
              LogLevel := config.cmpOr env.APP_LOG_LEVEL "info"
              Environment := config.cmpOr env.APP_ENV "local" }) := by
  constructor
  · intro h
    simp [config.New, config.runOpts, config.WithDefaultPort, h]
  · intro n hn
    have hne : env.APP_PORT ≠ "" := by
      intro h
      rw [h] at hn
      exact Except.noConfusion hn
    simp [config.New, config.runOpts, config.WithDefaultPort, hne, hn]

/-- Witness for C1 at concrete environments: `APP_PORT` unset gives the
default 7; `APP_PORT="9000"` overrides the default 7 with 9000. -/
theorem config_New_default_port_witness :
    config.New ⟨"", "lv", "ev"⟩ [config.WithDefaultPort ⟨"", "lv", "ev"⟩ 7] =
      .ok { Port := 7, LogLevel := "lv", Environment := "ev" } ∧
    config.New ⟨"9000", "", ""⟩ [config.WithDefaultPort ⟨"9000", "", ""⟩ 7] =
      .ok { Port := 9000, LogLevel := "info", Environment := "local" } :=
  ⟨(config_New_default_port ⟨"", "lv", "ev"⟩ 7).1 rfl,
   (config_New_default_port ⟨"9000", "", ""⟩ 7).2 9000 rfl⟩

/-- Claim C4: a non-empty `APP_PORT` that does not parse makes
`config.New` with the default-port option fail for every P, with the
"invalid port" error; and in general options run in the order supplied,
the first failing option aborting construction with its error. -/
theorem config_New_invalid_port (env : config.Env) (P : Int) (e : String)
    (h1 : env.APP_PORT ≠ "") (h2 : config.atoi env.APP_PORT = .error e) :
    config.New env [config.WithDefaultPort env P] =
      .error ("invalid port in APP_PORT environment variable: " ++ e) ∧
    strContains ("invalid port in APP_PORT environment variable: " ++ e) "invalid port" ∧
    ∀ (env' : config.Env) (pre : List (config.Config → Except String config.Config))
      (o : config.Config → Except String config.Config)
      (post : List (config.Config → Except String config.Config))
      (c' : config.Config) (e' : String),
      config.New env' pre = .ok c' → o c' = .error e' →
      config.New env' (pre ++ o :: post) = .error e' := by
  refine ⟨?_, ?_, ?_⟩
  · simp [config.New, config.runOpts, config.WithDefaultPort, h1, h2]
  · exact ⟨[], (" in APP_PORT environment variable: " ++ e).toList, by
      simp [show ("invalid port in APP_PORT environment variable: " ++ e).toList =
        "invalid port".toList ++ (" in APP_PORT environment variable: " ++ e).toList from rfl]⟩
  · intro env' pre o post c' e' hpre ho
    unfold config.New at hpre ⊢
    rw [config.runOpts_append, hpre]
    simp [config.runOpts, ho]

/-- Witness for C4 at a concrete environment: `APP_PORT="not-a-number"`
fails construction with the "invalid port" error; a concrete failing
option placed after a succeeding one aborts with its error. -/
theorem config_New_invalid_port_witness :
    config.New ⟨"not-a-number", "", ""⟩
        [config.WithDefaultPort ⟨"not-a-number", "", ""⟩ 8080] =
      .error ("invalid port in APP_PORT environment variable: " ++
        "strconv.Atoi: parsing \"not-a-number\": invalid syntax") ∧
    config.New ⟨"", "", ""⟩
        ([config.WithDefaultPort ⟨"", "", ""⟩ 1] ++
          (fun _ => .error "boom") :: [config.WithDefaultPort ⟨"", "", ""⟩ 2]) =
      .error "boom" := by
  have h := config_New_invalid_port ⟨"not-a-number", "", ""⟩ 8080
    "strconv.Atoi: parsing \"not-a-number\": invalid syntax" (by decide) rfl
  exact ⟨h.1, h.2.2 ⟨"", "", ""⟩ [config.WithDefaultPort ⟨"", "", ""⟩ 1]
    (fun _ => .error "boom") [config.WithDefaultPort ⟨"", "", ""⟩ 2]
    { Port := 1, LogLevel := "info", Environment := "local" } "boom" rfl rfl⟩

/-- Helper: `levelOfName` is defined exactly on the four level names. -/
theorem levelOfName_isSome_iff (x : String) :
    (levelOfName x).isSome ↔ x ∈ ["debug", "info", "warn", "error"] := by
  unfold levelOfName
  by_cases h1 : x = "debug" <;> by_cases h2 : x = "info" <;>
    by_cases h3 : x = "warn" <;> by_cases h4 : x = "error" <;>
    simp [h1, h2, h3, h4]

/-- Claim C3: `logger.New` succeeds exactly when the lowercased input is
one of the four level names; on success the threshold is the level that
name denotes, and on failure the error message contains
"invalid log level". -/
theorem logger_New_level_contract (s : String) :
    ((∃ l, logger.New s = .ok l) ↔ goToLower s ∈ ["debug", "info", "warn", "error"]) ∧
    (∀ l, logger.New s = .ok l → levelOfName (goToLower s) = some l.level) ∧
    (∀ m, logger.New s = .error m → strContains m "invalid log level") := by
  have he := logger.New_eq s
  refine ⟨⟨?_, ?_⟩, ?_, ?_⟩
  · rintro ⟨l, hl⟩
    rw [he] at hl
    rw [← levelOfName_isSome_iff]
    cases hone : levelOfName (goToLower s) with
    | some lv => rfl
    | none => rw [hone] at hl; exact Except.noConfusion hl
  · intro hmem
    rw [← levelOfName_isSome_iff] at hmem
    cases hone : levelOfName (goToLower s) with
    | some lv => exact ⟨⟨lv⟩, by rw [he, hone]⟩
    | none => rw [hone] at hmem; exact Bool.noConfusion hmem
  · intro l hl
    rw [he] at hl
    cases hone : levelOfName (goToLower s) with
    | some lv =>
      rw [hone] at hl
      injection hl with hl
      rw [← hl]
    | none => rw [hone] at hl; exact Except.noConfusion hl
  · intro m hm
    rw [he] at hm
    cases hone : levelOfName (goToLower s) with
    | some lv => rw [hone] at hm; exact Except.noConfusion hm
    | none =>
      rw [hone] at hm
      injection hm with hm
      subst hm
      refine ⟨[], (": " ++ goToLower s).toList, ?_⟩
      simp [show ("invalid log level: " ++ goToLower s).toList =
        "invalid log level".toList ++ (": " ++ goToLower s).toList from rfl]

/-- Witness for C3: "WARN" is accepted with threshold warn, and the
rejection of "bogus" carries the "invalid log level" message. -/
theorem logger_New_level_contract_witness :
    goToLower "WARN" ∈ ["debug", "info", "warn", "error"] ∧
    levelOfName (goToLower "WARN") = some logger.Level.warn ∧
    strContains "invalid log level: bogus" "invalid log level" :=
  ⟨(logger_New_level_contract "WARN").1.1 ⟨⟨.warn⟩, rfl⟩,
   (logger_New_level_contract "WARN").2.1 ⟨.warn⟩ rfl,
   (logger_New_level_contract "bogus").2.2 "invalid log level: bogus" rfl⟩

/-- Claim C7 counterexample: for the unsupported input "BAD" the error
message is "invalid log level: bad", which contains the lowercased
form but not the string "BAD" as the caller supplied it. -/
theorem logger_New_error_message_cex :
    logger.New "BAD" = .error "invalid log level: bad" ∧
    ¬ strContains "invalid log level: bad" "BAD" :=
  ⟨rfl, by decide⟩

/-- Claim C7 amended: when `logger.New` fails, the error message names
the offending input in its lowercased form. -/
theorem logger_New_error_names_input (s m : String)
    (h : logger.New s = .error m) : strContains m (goToLower s) := by
  rw [logger.New_eq] at h
  cases hone : levelOfName (goToLower s) with
  | some lv => rw [hone] at h; exact Except.noConfusion h
  | none =>
    rw [hone] at h
    injection h with h
    subst h
    exact strContains_append_right "invalid log level: " (goToLower s)

/-- Witness for the amended C7 at the concrete input "BAD". -/
theorem logger_New_error_names_input_witness :
    strContains "invalid log level: bad" (goToLower "BAD") :=
  logger_New_error_names_input "BAD" "invalid log level: bad" rfl

/-- Claim C6: `service.WithLogLevel` always stores the level string; it
rebuilds the logger only when one already exists, keeping the prior
logger when the rebuild fails (the option's type has no error channel,
so no error is surfaced); no other field changes. -/
theorem service_WithLogLevel_behavior (L : String) (s : service.Service) :
    (service.WithLogLevel L s).LogLevel = L ∧
    (service.WithLogLevel L s).Log =
      (match s.Log, logger.New L with
       | none, _ => none
       | some l, .error _ => some l
       | some _, .ok l2 => some l2) ∧
    (service.WithLogLevel L s).Environment = s.Environment ∧
    (service.WithLogLevel L s).Name = s.Name ∧
    (service.WithLogLevel L s).Port = s.Port ∧
    (service.WithLogLevel L s).Version = s.Version := by
  unfold service.WithLogLevel
  cases hL : s.Log <;> cases hN : logger.New L <;> simp [hL, hN]

/-- Claim C10: `service.NewWithName` never fails — the only failing step
builds the logger at the literal level "info", which always succeeds, so
for every name and option list an `ok` service is returned. -/
theorem service_NewWithName_never_fails (name : String) (opts : List service.Opt) :
    logger.New "info" = .ok ⟨.info⟩ ∧
    ∃ s, service.NewWithName name opts = .ok s :=
  ⟨rfl, ⟨_, rfl⟩⟩

/-- Claim C2 counterexample: `NewWithName "x"` followed by the log-level
option "bogus" yields LogLevel "bogus" — a string that names no level —
while the logger kept the info threshold, so the string and the
threshold are not consistent. -/
theorem service_loglevel_invariant_cex :
    service.NewWithName "x" [.logLevel "bogus"] =
      .ok { Environment := "", LogLevel := "bogus",
            Log := some ⟨.info⟩, Name := "x", Port := 8000, Version := "" } ∧
    levelOfName (goToLower "bogus") = none :=
  ⟨rfl, rfl⟩

/-- Helper: folding service options preserves the consistency between
the LogLevel string and the logger threshold, provided every log-level
option in the list carries a constructible level name. -/
theorem service.foldl_applyOpt_invariant (opts : List service.Opt) (s : service.Service)
    (h : ∀ l, service.Opt.logLevel l ∈ opts → ∃ nl, logger.New l = .ok nl)
    (hs : ∃ lv, levelOfName (goToLower s.LogLevel) = some lv ∧ s.Log = some ⟨lv⟩) :
    ∃ lv, levelOfName (goToLower (opts.foldl service.applyOpt s).LogLevel) = some lv ∧
      (opts.foldl service.applyOpt s).Log = some ⟨lv⟩ := by
  induction opts generalizing s with
  | nil => exact hs
  | cons o rest ih =>
    rw [List.foldl_cons]
    apply ih
    · intro l hl
      exact h l (List.mem_cons_of_mem _ hl)
    · obtain ⟨lv, hname, hlog⟩ := hs
      cases o with
      | environment e => exact ⟨lv, by simpa [service.applyOpt, service.WithEnvironment] using hname,
          by simpa [service.applyOpt, service.WithEnvironment] using hlog⟩
      | port p => exact ⟨lv, by simpa [service.applyOpt, service.WithPort] using hname,
          by simpa [service.applyOpt, service.WithPort] using hlog⟩
      | version v => exact ⟨lv, by simpa [service.applyOpt, service.WithVersion] using hname,
          by simpa [service.applyOpt, service.WithVersion] using hlog⟩
      | logLevel l =>
        obtain ⟨nl, hN⟩ := h l (List.mem_cons_self _ _)
        have he := logger.New_eq l
        cases hone : levelOfName (goToLower l) with
        | none =>
          rw [hone] at he
          rw [he] at hN
          exact Except.noConfusion hN
        | some lv2 =>
          rw [hone] at he
          exact ⟨lv2, by simp [service.applyOpt, service.WithLogLevel, hlog, he, hone],
            by simp [service.applyOpt, service.WithLogLevel, hlog, he]⟩

/-- Claim C2 amended: for every service produced by `NewWithName` and a
sequence of options whose log-level options all carry valid level
names, the logger threshold equals the level named by the (lowercased)
LogLevel string. -/
theorem service_loglevel_invariant (name : String) (opts : List service.Opt)
    (h : ∀ l, service.Opt.logLevel l ∈ opts → ∃ nl, logger.New l = .ok nl) :
    ∃ s, service.NewWithName name opts = .ok s ∧
      ∃ lv, levelOfName (goToLower s.LogLevel) = some lv ∧ s.Log = some ⟨lv⟩ := by
  refine ⟨opts.foldl service.applyOpt
    { Environment := "", LogLevel := "info", Log := some ⟨.info⟩,
      Name := name, Port := 8000, Version := "" }, rfl, ?_⟩
  exact service.foldl_applyOpt_invariant opts _ h ⟨.info, rfl, rfl⟩

/-- Witness for the amended C2 with the valid log-level option "debug". -/
theorem service_loglevel_invariant_witness :
    ∃ s, service.NewWithName "x" [.logLevel "debug"] = .ok s ∧
      ∃ lv, levelOfName (goToLower s.LogLevel) = some lv ∧ s.Log = some ⟨lv⟩ :=
  service_loglevel_invariant "x" [.logLevel "debug"] (by
    intro l hl
    simp at hl
    subst hl
    exact ⟨⟨.debug⟩, rfl⟩)

/-- Helper: a successful stateful logger construction leaves the given
logger installed as the process default. -/
theorem logger.NewSt_ok_default (level : String) (w : logger.World) (l : logger.Logger)
    (h : (logger.NewSt level w).1 = .ok l) : (logger.NewSt level w).2 = ⟨some l⟩ := by
  unfold logger.NewSt at h ⊢
  cases hN : logger.New level <;> simp_all

/-- Claim C9: every successful `logger.New` installs the returned
logger as the process-wide default, and after a second successful
construction the default is the most recent logger (last writer
wins). -/
theorem logger_NewSt_sets_default (level : String) (w : logger.World)
    (l : logger.Logger) (h : (logger.NewSt level w).1 = .ok l) :
    (logger.NewSt level w).2 = ⟨some l⟩ ∧
    ∀ (level2 : String) (l2 : logger.Logger),
      (logger.NewSt level2 (logger.NewSt level w).2).1 = .ok l2 →
      (logger.NewSt level2 (logger.NewSt level w).2).2 = ⟨some l2⟩ :=
  ⟨logger.NewSt_ok_default level w l h,
   fun level2 l2 h2 => logger.NewSt_ok_default level2 _ l2 h2⟩

/-- Witness for C9: constructing at "warn" over an installed debug
default replaces it, and a following construction at "error" replaces
it again. -/
theorem logger_NewSt_sets_default_witness :
    (logger.NewSt "warn" ⟨some ⟨.debug⟩⟩).2 = ⟨some ⟨.warn⟩⟩ ∧
    (logger.NewSt "error" (logger.NewSt "warn" ⟨some ⟨.debug⟩⟩).2).2 = ⟨some ⟨.error⟩⟩ := by
  have h := logger_NewSt_sets_default "warn" ⟨some ⟨.debug⟩⟩ ⟨.warn⟩ rfl
  exact ⟨h.1, h.2 "error" ⟨.error⟩ rfl⟩

/-- Claim C5 evaluation: for the service named "order" with version
"test-version", the four registered routes answer 200 with their exact
bodies, but the unmapped path "/unknown" is caught by the subtree
pattern "/" and also answers 200 with "order service" — not the 404
not-found response. -/
theorem service_Run_routes_eval :
    (service.NewWithName "order" [.version "test-version"]).map
        (fun s => (service.RunRequest s "/", service.RunRequest s "/_ready",
          service.RunRequest s "/_live", service.RunRequest s "/_version",
          service.RunRequest s "/unknown")) =
      .ok ((200, "order service"), (200, "order service is ready"),
        (200, "order service is alive"), (200, "test-version"),
        (200, "order service")) :=
  rfl
